import Mathlib

/-!
# Verification of the GridCraft / World of Bits core (`src/main.ts`)

Shallow embedding of the game's reproducible core: coordinate mapping,
deterministic spawn, the Flyweight cell-state store, the Memento
modified-cell store, the click interaction rules, the render pass, the
persistence adapter, movement, and strategy switching.

Modelling conventions:
* Geographic coordinates (`number` doubles in the source) are embedded as
  exact rationals `ℚ`; `Math.floor` is `Int.floor`.
* The JS `Map<string, _>` keyed by the string `"i,j"` is embedded as an
  association list keyed by the `GridCell` pair itself (the key string
  `i + "," + j` is in bijection with the integer pair), with
  `mapSet` replacing the (unique) existing entry in place or appending at
  the end, exactly the insertion-order semantics of `Map.set`.
* Leaflet render handles (`rect`, `marker`) and all DOM / message output
  are external library objects with no game-logic content; a `CellState`
  is embedded as its `tokenValue` field only.
* `localStorage` plus `JSON.stringify`/`JSON.parse` are embedded as an
  `Option PersistBlob` slot: `PersistBlob.parsed` is a blob that parses
  back to the serialized structure (JSON round-trips this shape exactly)
  and `PersistBlob.malformed` is a blob rejected by `JSON.parse`.
* The hash-to-float utility `_luck.ts` is not part of the sources; every
  definition that consults it is parametrized by `luck : String → ℚ`.
-/

namespace WorldOfBits

/-- `TILE_DEGREES = 1e-4`, the grid cell size in degrees. -/
def TILE_DEGREES : ℚ := 1e-4

/-- `INTERACTION_RADIUS = 3`, max Chebyshev distance in cells for interaction. -/
def INTERACTION_RADIUS : ℤ := 3

/-- `INITIAL_SPAWN_PROBABILITY = 0.15`. -/
def INITIAL_SPAWN_PROBABILITY : ℚ := 0.15

/-- `BASE_TOKEN_VALUES = [1, 2]`. -/
def BASE_TOKEN_VALUES : List ℤ := [1, 2]

/-- A geographic coordinate (leaflet `LatLng`). -/
structure LatLng where
  lat : ℚ
  lng : ℚ
deriving DecidableEq

/-- `NULL_ISLAND_LATLNG = leaflet.latLng(0, 0)`, the grid anchor. -/
def NULL_ISLAND_LATLNG : LatLng := ⟨0, 0⟩

/-- `INITIAL_PLAYER_LATLNG`. -/
def INITIAL_PLAYER_LATLNG : LatLng := ⟨36.997936938057016, -122.05703507501151⟩

/-- `type GridCell = { i: number; j: number }`. -/
structure GridCell where
  i : ℤ
  j : ℤ
deriving DecidableEq

/-- `latLngToGridCell`: discrete cell of a continuous coordinate. -/
def latLngToGridCell (latlng : LatLng) : GridCell :=
  ⟨⌊(latlng.lng - NULL_ISLAND_LATLNG.lng) / TILE_DEGREES⌋,
   ⌊(latlng.lat - NULL_ISLAND_LATLNG.lat) / TILE_DEGREES⌋⟩

/-- A leaflet `LatLngBounds`, kept as its two defining corners. -/
structure LatLngBounds where
  sw : LatLng
  ne : LatLng
deriving DecidableEq

/-- `gridCellToBounds`: geographic bounds of a cell. -/
def gridCellToBounds (cell : GridCell) : LatLngBounds :=
  { sw := ⟨NULL_ISLAND_LATLNG.lat + cell.j * TILE_DEGREES,
           NULL_ISLAND_LATLNG.lng + cell.i * TILE_DEGREES⟩,
    ne := ⟨NULL_ISLAND_LATLNG.lat + (cell.j + 1) * TILE_DEGREES,
           NULL_ISLAND_LATLNG.lng + (cell.i + 1) * TILE_DEGREES⟩ }

/-- Leaflet `LatLngBounds.getCenter`: the midpoint of the corners. -/
def boundsCenter (b : LatLngBounds) : LatLng :=
  ⟨(b.sw.lat + b.ne.lat) / 2, (b.sw.lng + b.ne.lng) / 2⟩

/-- A JavaScript value as produced by the spawn computation: a number,
`null`, or `undefined` (the result of an out-of-bounds array index). -/
inductive JsVal where
  | num (v : ℤ)
  | nullV
  | undefV
deriving DecidableEq

/-- JS array indexing `l[idx]`: the element when `idx` is in bounds,
`undefined` otherwise. -/
def jsIndex (l : List ℤ) (idx : ℤ) : JsVal :=
  if h : 0 ≤ idx ∧ idx.toNat < l.length then JsVal.num (l.get ⟨idx.toNat, h.2⟩)
  else JsVal.undefV

/-- `[i, j, "initial_spawn_d3b"].toString()`. -/
def spawnSituation (i j : ℤ) : String :=
  toString i ++ "," ++ toString j ++ ",initial_spawn_d3b"

/-- `[i, j, "value_choice_d3b"].toString()`. -/
def valueChoiceSituation (i j : ℤ) : String :=
  toString i ++ "," ++ toString j ++ ",value_choice_d3b"

/-- `getInitialTokenValue(i, j)`: deterministic spawn value of a cell,
parametrized by the external hash-to-float utility `luck`. -/
def getInitialTokenValue (luck : String → ℚ) (i j : ℤ) : JsVal :=
  if luck (spawnSituation i j) < INITIAL_SPAWN_PROBABILITY then
    jsIndex BASE_TOKEN_VALUES
      ⌊luck (valueChoiceSituation i j) * (BASE_TOKEN_VALUES.length : ℚ)⌋
  else JsVal.nullV

/-- Collapse a `JsVal` to the `number | null` token domain. `undefined`
never occurs when `luck` lands in `[0,1)` (see the claim-10 theorem), so
identifying it with `null` here is faithful for the real utility. -/
def JsVal.toOption : JsVal → Option ℤ
  | .num v => some v
  | .nullV => none
  | .undefV => none

/-! ## Association-list model of `Map<string, number | null>` -/

/-- `Map.get(id)` (wrapped in `has`): `some v` when the key is present. -/
def mapGet : List (GridCell × Option ℤ) → GridCell → Option (Option ℤ)
  | [], _ => none
  | e :: rest, k => if e.1 = k then some e.2 else mapGet rest k

/-- `Map.set(id, v)`: replace the existing entry in place, else append. -/
def mapSet : List (GridCell × Option ℤ) → GridCell → Option ℤ →
    List (GridCell × Option ℤ)
  | [], k, v => [(k, v)]
  | e :: rest, k, v => if e.1 = k then (k, v) :: rest else e :: mapSet rest k v

/-- The keys of a store, in insertion order. -/
def keysOf (m : List (GridCell × Option ℤ)) : List GridCell := m.map Prod.fst

/-! ## Game state -/

/-- The two movement strategies behind the facade. -/
inductive Strategy where
  | buttons
  | geolocation
deriving DecidableEq

/-- The four directions accepted by `movePlayer`. -/
inductive Dir where
  | north
  | south
  | east
  | west
deriving DecidableEq

/-- `type GameState`: the shape serialized to `localStorage`. -/
structure PersistedState where
  playerLatLng : LatLng
  heldToken : Option ℤ
  modifiedCellStates : List (GridCell × Option ℤ)
deriving DecidableEq

/-- The stored blob: either parses back to a `PersistedState`, or is
rejected by `JSON.parse`. -/
inductive PersistBlob where
  | parsed (g : PersistedState)
  | malformed
deriving DecidableEq

/-- The module-level mutable state of `main.ts`: player position, held
token, the Flyweight `cellStates` (token values of visible cells; render
handles are external), the Memento `modifiedCellStates`, the active
movement strategy, and the `localStorage` slot under `STORAGE_KEY`. -/
structure GameSt where
  playerLatLng : LatLng
  heldToken : Option ℤ
  cellStates : List (GridCell × Option ℤ)
  modifiedCellStates : List (GridCell × Option ℤ)
  currentMovementStrategy : Strategy
  storage : Option PersistBlob
deriving DecidableEq

/-- The state at module load: initial position, nothing held, both stores
empty, button movement. The storage slot's initial content is arbitrary
(whatever the browser has) and is set separately. -/
def initState : GameSt :=
  { playerLatLng := INITIAL_PLAYER_LATLNG
    heldToken := none
    cellStates := []
    modifiedCellStates := []
    currentMovementStrategy := Strategy.buttons
    storage := none }

/-! ## Persistence adapter -/

/-- `saveGameState()`: serialize player state and the Memento store into
the storage slot. -/
def saveGameState (s : GameSt) : GameSt :=
  { s with storage := some (PersistBlob.parsed
      { playerLatLng := s.playerLatLng
        heldToken := s.heldToken
        modifiedCellStates := s.modifiedCellStates }) }

/-- `modifiedCellStates.clear()` followed by `forEach(set)` over the
deserialized entry list. -/
def loadEntries (l : List (GridCell × Option ℤ)) : List (GridCell × Option ℤ) :=
  l.foldl (fun m e => mapSet m e.1 e.2) []

/-- `loadGameState()`: returns the success flag together with the updated
state. A missing blob leaves everything untouched; a parsed blob restores
player state and the Memento store; a malformed blob is removed from
storage ("Clear invalid state") and the in-memory state is untouched. -/
def loadGameState (s : GameSt) : Bool × GameSt :=
  match s.storage with
  | none => (false, s)
  | some (PersistBlob.parsed g) =>
      (true, { s with
        playerLatLng := g.playerLatLng
        heldToken := g.heldToken
        modifiedCellStates := loadEntries g.modifiedCellStates })
  | some PersistBlob.malformed => (false, { s with storage := none })

/-! ## Interaction rule engine -/

/-- `handleCellClick(i, j)`. The message calls, `drawCell` and
`updateStatusPanel` are display-only; every state-changing branch ends in
`saveGameState()` (`stateChanged` guard in the source). -/
def handleCellClick (i j : ℤ) (s : GameSt) : GameSt :=
  match mapGet s.cellStates ⟨i, j⟩ with
  | none => s
  | some cellTokenValue =>
      if INTERACTION_RADIUS <
          max |i - (latLngToGridCell s.playerLatLng).i|
              |j - (latLngToGridCell s.playerLatLng).j| then s
      else
        match s.heldToken, cellTokenValue with
        | none, some v =>
            -- PICKUP
            saveGameState { s with
              heldToken := some v
              cellStates := mapSet s.cellStates ⟨i, j⟩ none
              modifiedCellStates := mapSet s.modifiedCellStates ⟨i, j⟩ none }
        | some held, some v =>
            -- CRAFTING
            if held = v then
              saveGameState { s with
                heldToken := some (held * 2)
                cellStates := mapSet s.cellStates ⟨i, j⟩ none
                modifiedCellStates := mapSet s.modifiedCellStates ⟨i, j⟩ none }
            else s
        | some held, none =>
            -- PLACEMENT
            saveGameState { s with
              heldToken := none
              cellStates := mapSet s.cellStates ⟨i, j⟩ (some held)
              modifiedCellStates := mapSet s.modifiedCellStates ⟨i, j⟩ (some held) }
        | none, none => s

/-! ## Render driver -/

/-- The integers from `a` to `b` inclusive (`for (let k = a; k <= b; k++)`). -/
def intRange (a b : ℤ) : List ℤ :=
  (List.range (b + 1 - a).toNat).map fun (n : ℕ) => a + (n : ℤ)

/-- The Memento check inside `renderVisibleCells`: the store entry when
present (possibly empty), else the deterministic spawn value. -/
def resolveTokenValue (luck : String → ℚ) (m : List (GridCell × Option ℤ))
    (c : GridCell) : Option ℤ :=
  match mapGet m c with
  | some v => v
  | none => (getInitialTokenValue luck c.i c.j).toOption

/-- The visible cell rectangle: viewport corner cells expanded by one. -/
def visibleCells (sw ne : LatLng) : List GridCell :=
  (intRange ((latLngToGridCell sw).i - 1) ((latLngToGridCell ne).i + 1)).flatMap
    fun i =>
      (intRange ((latLngToGridCell sw).j - 1) ((latLngToGridCell ne).j + 1)).map
        fun j => GridCell.mk i j

/-- `renderVisibleCells()`: clear the Flyweight store and rebuild it for
every cell in the visible rectangle, resolving each token value through
the Memento store. `drawCell` only produces render handles. -/
def renderVisibleCells (luck : String → ℚ) (sw ne : LatLng) (s : GameSt) : GameSt :=
  { s with cellStates :=
      (visibleCells sw ne).map fun c => (c, resolveTokenValue luck s.modifiedCellStates c) }

/-! ## Movement -/

/-- `updatePlayerPosition`: move (and save) only when the position changed.
Marker/pan/status updates are display-only. -/
def updatePlayerPosition (p : LatLng) (s : GameSt) : GameSt :=
  if s.playerLatLng = p then s else saveGameState { s with playerLatLng := p }

/-- `movePlayer(direction)`: one tile step in a cardinal direction. -/
def movePlayer (d : Dir) (s : GameSt) : GameSt :=
  updatePlayerPosition
    ⟨s.playerLatLng.lat +
        (match d with
         | Dir.north => TILE_DEGREES
         | Dir.south => -TILE_DEGREES
         | _ => 0),
     s.playerLatLng.lng +
        (match d with
         | Dir.east => TILE_DEGREES
         | Dir.west => -TILE_DEGREES
         | _ => 0)⟩ s

/-- `MovementControllerFacade.toggleStrategy()`: stop the old strategy,
flip the strategy tag, start the new one. `stop`, `init`,
`renderControls`, `updateStatusPanel` and `showMessage` touch only
listeners, the geolocation watch and the DOM. -/
def toggleStrategy (s : GameSt) : GameSt :=
  { s with currentMovementStrategy :=
      if s.currentMovementStrategy = Strategy.buttons then Strategy.geolocation
      else Strategy.buttons }

/-! ## Event-level semantics -/

/-- The events that can fire after startup and drive the game handlers:
cell clicks, viewport re-renders, movement input, strategy toggling, and
explicit saves. -/
inductive Act where
  | click (i j : ℤ)
  | render (sw ne : LatLng)
  | move (d : Dir)
  | toggle
  | save

/-- Dispatch one event to its handler. -/
def stepAct (luck : String → ℚ) (s : GameSt) : Act → GameSt
  | Act.click i j => handleCellClick i j s
  | Act.render sw ne => renderVisibleCells luck sw ne s
  | Act.move d => movePlayer d s
  | Act.toggle => toggleStrategy s
  | Act.save => saveGameState s

/-- Run a list of events from a state. -/
def runActs (luck : String → ℚ) (acts : List Act) (s : GameSt) : GameSt :=
  acts.foldl (stepAct luck) s

/-- `initializeGame()` start: module state with whatever the storage slot
holds, after the single startup `loadGameState()` call. -/
def startState (st : Option PersistBlob) : GameSt :=
  (loadGameState { initState with storage := st }).2

/-- Modelled from the spec: the hash-to-float utility `_luck.ts` (absent
from the sources). The spec constrains it only to be a deterministic map
from strings into `[0,1)`; this concrete instance is used to evaluate the
embedding on explicit inputs. -/
def luckModel : String → ℚ := fun _ => 0

/-! ## Concrete fixtures for evaluating the embedding -/

/-- The player's starting cell. -/
def pcCell : GridCell := latLngToGridCell INITIAL_PLAYER_LATLNG

/-- One render of the starting viewport followed by a pickup and an
immediate place on the player's own cell. -/
def ceActs : List Act :=
  [Act.render INITIAL_PLAYER_LATLNG INITIAL_PLAYER_LATLNG,
   Act.click pcCell.i pcCell.j,
   Act.click pcCell.i pcCell.j]

/-- A state holding a `1` token while the player's own cell also shows `1`. -/
def wStateCraft : GameSt :=
  { initState with cellStates := [(pcCell, some 1)], heldToken := some 1 }

/-- A state holding a `1` token while the player's own cell shows `2`. -/
def wStateMismatch : GameSt :=
  { initState with cellStates := [(pcCell, some 2)], heldToken := some 1 }

/-- A state with a held token and two Memento entries, for the save/load
round trip. -/
def wStateSave : GameSt :=
  { initState with
      heldToken := some 2
      modifiedCellStates := [(⟨0, 0⟩, none), (⟨1, 2⟩, some 4)] }

/-- A state whose Memento store overrides the player's own cell to `5`. -/
def wStateRender : GameSt :=
  { initState with modifiedCellStates := [(pcCell, some 5)] }

/-- A state where the player's own cell shows its deterministic spawn
value and nothing is held. -/
def wStatePickup : GameSt :=
  { initState with cellStates := [(pcCell, some 1)] }

/-- The state after the initial render of `ceActs`. -/
def ceS1 : GameSt :=
  renderVisibleCells luckModel INITIAL_PLAYER_LATLNG INITIAL_PLAYER_LATLNG
    initState

/-- The state after the pickup click of `ceActs`. -/
def ceS2 : GameSt := handleCellClick pcCell.i pcCell.j ceS1

/-- The state after the place click of `ceActs`. -/
def ceS3 : GameSt := handleCellClick pcCell.i pcCell.j ceS2

/-- A rendered neighbour of the player's cell that `ceActs` never clicks. -/
def nCell : GridCell := ⟨pcCell.i + 1, pcCell.j⟩

/-- Amended Memento invariant: a rendered cell whose Flyweight value is
not recorded in the Memento store always shows its deterministic spawn
value. -/
def StoreConsistent (luck : String → ℚ) (s : GameSt) : Prop :=
  ∀ c v, mapGet s.cellStates c = some v →
    mapGet s.modifiedCellStates c = none →
    v = (getInitialTokenValue luck c.i c.j).toOption

/-! ## Store lemmas -/

theorem mapGet_mapSet_self (m : List (GridCell × Option ℤ)) (k : GridCell)
    (v : Option ℤ) : mapGet (mapSet m k v) k = some v := by
  induction m with
  | nil => simp [mapSet, mapGet]
  | cons e rest ih =>
      by_cases h : e.1 = k
      · simp [mapSet, mapGet, h]
      · simp [mapSet, mapGet, h, ih]

theorem mapGet_mapSet_ne (m : List (GridCell × Option ℤ)) (k k' : GridCell)
    (v : Option ℤ) (h : k' ≠ k) : mapGet (mapSet m k v) k' = mapGet m k' := by
  have hkk : ¬ k = k' := fun hx => h hx.symm
  induction m with
  | nil => simp [mapSet, mapGet, hkk]
  | cons e rest ih =>
      simp only [mapSet]
      by_cases he : e.1 = k
      · rw [if_pos he]
        have he' : ¬ e.1 = k' := by rw [he]; exact hkk
        simp [mapGet, hkk, he']
      · rw [if_neg he]
        by_cases he' : e.1 = k'
        · simp [mapGet, he']
        · simp [mapGet, he', ih]

theorem mapGet_keyMap (f : GridCell → Option ℤ) (cs : List GridCell)
    (k : GridCell) :
    mapGet (cs.map fun c => (c, f c)) k =
      if k ∈ cs then some (f k) else none := by
  induction cs with
  | nil => simp [mapGet]
  | cons c rest ih =>
      by_cases h : c = k
      · subst h; simp [mapGet]
      · simp only [List.map_cons, mapGet, ih]
        rw [if_neg h]
        have h' : ¬ k = c := fun hx => h hx.symm
        by_cases hk : k ∈ rest <;> simp [hk, h', List.mem_cons]

theorem mapSet_of_not_mem (m : List (GridCell × Option ℤ)) (k : GridCell)
    (v : Option ℤ) (h : k ∉ keysOf m) : mapSet m k v = m ++ [(k, v)] := by
  induction m with
  | nil => simp [mapSet]
  | cons e rest ih =>
      simp only [keysOf, List.map_cons, List.mem_cons] at h
      push_neg at h
      have h1 : ¬ e.1 = k := fun hx => h.1 hx.symm
      simp only [mapSet, h1, if_false, List.cons_append]
      rw [ih (by simpa [keysOf] using h.2)]

theorem foldl_mapSet_eq_append (l acc : List (GridCell × Option ℤ))
    (hnd : (keysOf l).Nodup) (hdisj : ∀ k ∈ keysOf l, k ∉ keysOf acc) :
    l.foldl (fun m e => mapSet m e.1 e.2) acc = acc ++ l := by
  induction l generalizing acc with
  | nil => simp
  | cons e rest ih =>
      simp only [keysOf, List.map_cons, List.nodup_cons] at hnd
      have h1 : e.1 ∉ keysOf acc :=
        hdisj e.1 (by simp [keysOf])
      have hstep : mapSet acc e.1 e.2 = acc ++ [(e.1, e.2)] :=
        mapSet_of_not_mem acc e.1 e.2 h1
      rw [List.foldl_cons, hstep]
      rw [ih (acc ++ [(e.1, e.2)]) hnd.2]
      · simp
      · intro k hk
        simp only [keysOf, List.map_append, List.mem_append] at *
        push_neg
        refine ⟨fun hx => hdisj k (by simp [keysOf, hk]) hx, ?_⟩
        simp only [List.map_cons, List.map_nil, List.mem_singleton]
        intro hx
        exact hnd.1 (hx ▸ hk)

theorem loadEntries_eq_self (l : List (GridCell × Option ℤ))
    (hnd : (keysOf l).Nodup) : loadEntries l = l := by
  unfold loadEntries
  rw [foldl_mapSet_eq_append l [] hnd (by simp [keysOf])]
  simp

/-! ## Range and viewport lemmas -/

theorem mem_intRange {a b k : ℤ} : k ∈ intRange a b ↔ a ≤ k ∧ k ≤ b := by
  unfold intRange
  simp only [List.mem_map, List.mem_range]
  constructor
  · rintro ⟨n, hn, rfl⟩; omega
  · rintro ⟨h1, h2⟩; exact ⟨(k - a).toNat, by omega, by omega⟩

theorem mem_visibleCells {sw ne : LatLng} {c : GridCell} :
    c ∈ visibleCells sw ne ↔
      (latLngToGridCell sw).i - 1 ≤ c.i ∧ c.i ≤ (latLngToGridCell ne).i + 1 ∧
      (latLngToGridCell sw).j - 1 ≤ c.j ∧ c.j ≤ (latLngToGridCell ne).j + 1 := by
  unfold visibleCells
  simp only [List.mem_flatMap, List.mem_map, mem_intRange]
  constructor
  · rintro ⟨i, hi, j, hj, rfl⟩
    exact ⟨hi.1, hi.2, hj.1, hj.2⟩
  · rintro ⟨h1, h2, h3, h4⟩
    exact ⟨c.i, ⟨h1, h2⟩, c.j, ⟨h3, h4⟩, rfl⟩

theorem mapGet_render (luck : String → ℚ) (sw ne : LatLng) (s : GameSt)
    (c : GridCell) :
    mapGet (renderVisibleCells luck sw ne s).cellStates c =
      if c ∈ visibleCells sw ne
      then some (resolveTokenValue luck s.modifiedCellStates c)
      else none := by
  simp [renderVisibleCells, mapGet_keyMap]

/-! ## Spawn evaluation under the modelled hash -/

theorem getInitialTokenValue_luckModel (i j : ℤ) :
    getInitialTokenValue luckModel i j = JsVal.num 1 := by
  unfold getInitialTokenValue luckModel
  rw [if_pos (by norm_num [INITIAL_SPAWN_PROBABILITY])]
  norm_num [jsIndex, BASE_TOKEN_VALUES]

/-! ## Branch characterizations of the click handler -/

theorem handleCellClick_noCell (i j : ℤ) (s : GameSt)
    (hc : mapGet s.cellStates ⟨i, j⟩ = none) :
    handleCellClick i j s = s := by
  simp only [handleCellClick, hc]

theorem handleCellClick_far (i j : ℤ) (s : GameSt)
    (hd : INTERACTION_RADIUS <
      max |i - (latLngToGridCell s.playerLatLng).i|
          |j - (latLngToGridCell s.playerLatLng).j|) :
    handleCellClick i j s = s := by
  simp only [handleCellClick]
  cases hc : mapGet s.cellStates ⟨i, j⟩ with
  | none => rfl
  | some ctv => simp only [if_pos hd]

theorem handleCellClick_pickup (i j : ℤ) (s : GameSt) (v : ℤ)
    (hc : mapGet s.cellStates ⟨i, j⟩ = some (some v))
    (hh : s.heldToken = none)
    (hd : ¬ INTERACTION_RADIUS <
      max |i - (latLngToGridCell s.playerLatLng).i|
          |j - (latLngToGridCell s.playerLatLng).j|) :
    handleCellClick i j s = saveGameState { s with
      heldToken := some v
      cellStates := mapSet s.cellStates ⟨i, j⟩ none
      modifiedCellStates := mapSet s.modifiedCellStates ⟨i, j⟩ none } := by
  simp only [handleCellClick, hc, if_neg hd, hh]

theorem handleCellClick_craft (i j : ℤ) (s : GameSt) (held v : ℤ)
    (hc : mapGet s.cellStates ⟨i, j⟩ = some (some v))
    (hh : s.heldToken = some held)
    (hd : ¬ INTERACTION_RADIUS <
      max |i - (latLngToGridCell s.playerLatLng).i|
          |j - (latLngToGridCell s.playerLatLng).j|) :
    handleCellClick i j s =
      if held = v then
        saveGameState { s with
          heldToken := some (held * 2)
          cellStates := mapSet s.cellStates ⟨i, j⟩ none
          modifiedCellStates := mapSet s.modifiedCellStates ⟨i, j⟩ none }
      else s := by
  simp only [handleCellClick, hc, if_neg hd, hh]

theorem handleCellClick_place (i j : ℤ) (s : GameSt) (held : ℤ)
    (hc : mapGet s.cellStates ⟨i, j⟩ = some none)
    (hh : s.heldToken = some held)
    (hd : ¬ INTERACTION_RADIUS <
      max |i - (latLngToGridCell s.playerLatLng).i|
          |j - (latLngToGridCell s.playerLatLng).j|) :
    handleCellClick i j s = saveGameState { s with
      heldToken := none
      cellStates := mapSet s.cellStates ⟨i, j⟩ (some held)
      modifiedCellStates := mapSet s.modifiedCellStates ⟨i, j⟩ (some held) } := by
  simp only [handleCellClick, hc, if_neg hd, hh]

theorem handleCellClick_emptyIdle (i j : ℤ) (s : GameSt)
    (hc : mapGet s.cellStates ⟨i, j⟩ = some none)
    (hh : s.heldToken = none) :
    handleCellClick i j s = s := by
  simp only [handleCellClick, hc, hh]
  split <;> rfl


theorem handleCellClick_cases (i j : ℤ) (s : GameSt) :
    handleCellClick i j s = s ∨
    ∃ x t, handleCellClick i j s = saveGameState { s with
      heldToken := t
      cellStates := mapSet s.cellStates ⟨i, j⟩ x
      modifiedCellStates := mapSet s.modifiedCellStates ⟨i, j⟩ x } := by
  by_cases hd : INTERACTION_RADIUS <
      max |i - (latLngToGridCell s.playerLatLng).i|
          |j - (latLngToGridCell s.playerLatLng).j|
  · exact Or.inl (handleCellClick_far i j s hd)
  · cases hc : mapGet s.cellStates ⟨i, j⟩ with
    | none => exact Or.inl (handleCellClick_noCell i j s hc)
    | some ctv =>
        cases hh : s.heldToken with
        | none =>
            cases ctv with
            | none => exact Or.inl (handleCellClick_emptyIdle i j s hc hh)
            | some v =>
                exact Or.inr ⟨none, some v, handleCellClick_pickup i j s v hc hh hd⟩
        | some held =>
            cases ctv with
            | none =>
                exact Or.inr ⟨some held, none,
                  handleCellClick_place i j s held hc hh hd⟩
            | some v =>
                rw [handleCellClick_craft i j s held v hc hh hd]
                by_cases hv : held = v
                · exact Or.inr ⟨none, some (held * 2), by rw [if_pos hv]⟩
                · exact Or.inl (by rw [if_neg hv])

theorem storeConsistent_click (luck : String → ℚ) (i j : ℤ) (s : GameSt)
    (h : StoreConsistent luck s) :
    StoreConsistent luck (handleCellClick i j s) := by
  rcases handleCellClick_cases i j s with heq | ⟨x, t, heq⟩
  · rw [heq]; exact h
  · rw [heq]
    intro c v hc hm
    by_cases hck : c = ⟨i, j⟩
    · exfalso
      subst hck
      rw [show (saveGameState { s with
            heldToken := t
            cellStates := mapSet s.cellStates ⟨i, j⟩ x
            modifiedCellStates := mapSet s.modifiedCellStates ⟨i, j⟩ x }).modifiedCellStates
          = mapSet s.modifiedCellStates ⟨i, j⟩ x from rfl] at hm
      rw [mapGet_mapSet_self] at hm
      exact Option.noConfusion hm
    · rw [show (saveGameState { s with
            heldToken := t
            cellStates := mapSet s.cellStates ⟨i, j⟩ x
            modifiedCellStates := mapSet s.modifiedCellStates ⟨i, j⟩ x }).cellStates
          = mapSet s.cellStates ⟨i, j⟩ x from rfl] at hc
      rw [show (saveGameState { s with
            heldToken := t
            cellStates := mapSet s.cellStates ⟨i, j⟩ x
            modifiedCellStates := mapSet s.modifiedCellStates ⟨i, j⟩ x }).modifiedCellStates
          = mapSet s.modifiedCellStates ⟨i, j⟩ x from rfl] at hm
      rw [mapGet_mapSet_ne _ _ _ _ hck] at hc
      rw [mapGet_mapSet_ne _ _ _ _ hck] at hm
      exact h c v hc hm

theorem storeConsistent_render (luck : String → ℚ) (sw ne : LatLng)
    (s : GameSt) : StoreConsistent luck (renderVisibleCells luck sw ne s) := by
  intro c v hc hm
  rw [show (renderVisibleCells luck sw ne s).modifiedCellStates
      = s.modifiedCellStates from rfl] at hm
  rw [mapGet_render] at hc
  by_cases hmem : c ∈ visibleCells sw ne
  · rw [if_pos hmem] at hc
    have hv : v = resolveTokenValue luck s.modifiedCellStates c :=
      (Option.some.injEq _ _ ▸ hc).symm
    rw [hv]
    unfold resolveTokenValue
    rw [hm]
  · rw [if_neg hmem] at hc
    exact absurd hc (by simp)

theorem storeConsistent_stepAct (luck : String → ℚ) (s : GameSt) (a : Act)
    (h : StoreConsistent luck s) : StoreConsistent luck (stepAct luck s a) := by
  cases a with
  | click i j => exact storeConsistent_click luck i j s h
  | render sw ne => exact storeConsistent_render luck sw ne s
  | move d =>
      show StoreConsistent luck (movePlayer d s)
      unfold movePlayer updatePlayerPosition
      split
      · exact h
      · exact h
  | toggle => exact h
  | save => exact h

theorem storeConsistent_runActs (luck : String → ℚ) (acts : List Act) :
    ∀ s : GameSt, StoreConsistent luck s →
      StoreConsistent luck (runActs luck acts s) := by
  induction acts with
  | nil => intro s h; exact h
  | cons a rest ih =>
      intro s h
      exact ih (stepAct luck s a) (storeConsistent_stepAct luck s a h)

theorem storeConsistent_startState (luck : String → ℚ)
    (st : Option PersistBlob) : StoreConsistent luck (startState st) := by
  intro c v hc _
  exfalso
  cases st with
  | none => simp [startState, loadGameState, initState, mapGet] at hc
  | some b =>
      cases b with
      | parsed g => simp [startState, loadGameState, initState, mapGet] at hc
      | malformed => simp [startState, loadGameState, initState, mapGet] at hc

/-! ## Concrete evaluation of the pickup-place scenario -/


theorem startState_none_eq : startState none = initState := rfl

theorem ceRun_eq : runActs luckModel ceActs (startState none) = ceS3 := rfl

theorem ceS1_cells_pc : mapGet ceS1.cellStates pcCell = some (some 1) := by
  have hpc : latLngToGridCell INITIAL_PLAYER_LATLNG = pcCell := rfl
  show mapGet (renderVisibleCells luckModel INITIAL_PLAYER_LATLNG
      INITIAL_PLAYER_LATLNG initState).cellStates pcCell = some (some 1)
  rw [mapGet_render]
  rw [if_pos (by rw [mem_visibleCells, hpc]; omega)]
  rw [show resolveTokenValue luckModel initState.modifiedCellStates pcCell
      = (getInitialTokenValue luckModel pcCell.i pcCell.j).toOption from rfl]
  rw [getInitialTokenValue_luckModel]
  rfl

theorem ce_pickup_far : ¬ INTERACTION_RADIUS <
    max |pcCell.i - (latLngToGridCell ceS1.playerLatLng).i|
        |pcCell.j - (latLngToGridCell ceS1.playerLatLng).j| := by
  show ¬ INTERACTION_RADIUS < max |pcCell.i - pcCell.i| |pcCell.j - pcCell.j|
  simp [INTERACTION_RADIUS]

theorem ceS2_eq : ceS2 = saveGameState { ceS1 with
    heldToken := some 1
    cellStates := mapSet ceS1.cellStates ⟨pcCell.i, pcCell.j⟩ none
    modifiedCellStates := mapSet ceS1.modifiedCellStates ⟨pcCell.i, pcCell.j⟩ none } :=
  handleCellClick_pickup pcCell.i pcCell.j ceS1 1 ceS1_cells_pc rfl ce_pickup_far

theorem ceS3_eq : ceS3 = saveGameState { (saveGameState { ceS1 with
    heldToken := some 1
    cellStates := mapSet ceS1.cellStates ⟨pcCell.i, pcCell.j⟩ none
    modifiedCellStates := mapSet ceS1.modifiedCellStates ⟨pcCell.i, pcCell.j⟩ none }) with
    heldToken := none
    cellStates := mapSet (mapSet ceS1.cellStates ⟨pcCell.i, pcCell.j⟩ none)
      ⟨pcCell.i, pcCell.j⟩ (some 1)
    modifiedCellStates := mapSet (mapSet ceS1.modifiedCellStates ⟨pcCell.i, pcCell.j⟩ none)
      ⟨pcCell.i, pcCell.j⟩ (some 1) } := by
  show handleCellClick pcCell.i pcCell.j ceS2 = _
  rw [ceS2_eq]
  exact handleCellClick_place pcCell.i pcCell.j _ 1
    (by exact mapGet_mapSet_self ceS1.cellStates ⟨pcCell.i, pcCell.j⟩ none)
    rfl
    (by
      show ¬ INTERACTION_RADIUS <
        max |pcCell.i - pcCell.i| |pcCell.j - pcCell.j|
      simp [INTERACTION_RADIUS])

theorem ceS3_modified_pc :
    mapGet ceS3.modifiedCellStates pcCell = some (some 1) := by
  rw [ceS3_eq]
  exact mapGet_mapSet_self _ ⟨pcCell.i, pcCell.j⟩ (some 1)

theorem nCell_ne_pc : nCell ≠ pcCell := by
  intro h
  have hi : nCell.i = pcCell.i := congrArg GridCell.i h
  have hi' : pcCell.i + 1 = pcCell.i := hi
  omega

theorem ceS3_cells_n : mapGet ceS3.cellStates nCell = some (some 1) := by
  rw [ceS3_eq]
  show mapGet (mapSet (mapSet ceS1.cellStates ⟨pcCell.i, pcCell.j⟩ none)
      ⟨pcCell.i, pcCell.j⟩ (some 1)) nCell = some (some 1)
  rw [mapGet_mapSet_ne _ _ _ _ nCell_ne_pc, mapGet_mapSet_ne _ _ _ _ nCell_ne_pc]
  have hpc : latLngToGridCell INITIAL_PLAYER_LATLNG = pcCell := rfl
  show mapGet (renderVisibleCells luckModel INITIAL_PLAYER_LATLNG
      INITIAL_PLAYER_LATLNG initState).cellStates nCell = some (some 1)
  rw [mapGet_render]
  rw [if_pos (by
    rw [mem_visibleCells, hpc]
    show pcCell.i - 1 ≤ nCell.i ∧ nCell.i ≤ pcCell.i + 1 ∧
      pcCell.j - 1 ≤ nCell.j ∧ nCell.j ≤ pcCell.j + 1
    show pcCell.i - 1 ≤ pcCell.i + 1 ∧ pcCell.i + 1 ≤ pcCell.i + 1 ∧
      pcCell.j - 1 ≤ pcCell.j ∧ pcCell.j ≤ pcCell.j + 1
    omega)]
  rw [show resolveTokenValue luckModel initState.modifiedCellStates nCell
      = (getInitialTokenValue luckModel nCell.i nCell.j).toOption from rfl]
  rw [getInitialTokenValue_luckModel]
  rfl

theorem ceS3_modified_n : mapGet ceS3.modifiedCellStates nCell = none := by
  rw [ceS3_eq]
  show mapGet (mapSet (mapSet ceS1.modifiedCellStates ⟨pcCell.i, pcCell.j⟩ none)
      ⟨pcCell.i, pcCell.j⟩ (some 1)) nCell = none
  rw [mapGet_mapSet_ne _ _ _ _ nCell_ne_pc, mapGet_mapSet_ne _ _ _ _ nCell_ne_pc]
  rfl

/-! ## The claims -/


/-- C1 (amended): in every reachable state, a rendered cell that is absent
from the Modified-Cell Store shows exactly its deterministic spawn value;
the "only if" half of the original invariant. -/
theorem claim1_absent_means_default (luck : String → ℚ)
    (st : Option PersistBlob) (acts : List Act) (c : GridCell) (v : Option ℤ)
    (hc : mapGet (runActs luck acts (startState st)).cellStates c = some v)
    (hm : mapGet (runActs luck acts (startState st)).modifiedCellStates c = none) :
    v = (getInitialTokenValue luck c.i c.j).toOption :=
  storeConsistent_runActs luck acts (startState st)
    (storeConsistent_startState luck st) c v hc hm

/-- C1 counterexample: the reachable pickup-then-place sequence `ceActs`
leaves the player's cell in the Modified-Cell Store with a value equal to
its deterministic spawn value, refuting the "only if" direction of the
claimed invariant. -/
theorem claim1_counterexample :
    mapGet (runActs luckModel ceActs (startState none)).modifiedCellStates pcCell
      = some (some 1)
  ∧ (getInitialTokenValue luckModel pcCell.i pcCell.j).toOption = some 1
  ∧ ¬ (∀ c : GridCell,
      (mapGet (runActs luckModel ceActs (startState none)).modifiedCellStates c).isSome →
      resolveTokenValue luckModel
          (runActs luckModel ceActs (startState none)).modifiedCellStates c
        ≠ (getInitialTokenValue luckModel c.i c.j).toOption) := by
  refine ⟨by rw [ceRun_eq]; exact ceS3_modified_pc,
          by rw [getInitialTokenValue_luckModel]; rfl,
          fun hall => ?_⟩
  refine hall pcCell ?_ ?_
  · rw [ceRun_eq, ceS3_modified_pc]
    rfl
  · rw [ceRun_eq]
    simp only [resolveTokenValue, ceS3_modified_pc, getInitialTokenValue_luckModel]
    rfl

/-- Witness for the amended C1 theorem at the never-clicked neighbour cell
after `ceActs`. -/
theorem claim1_witness :
    mapGet (runActs luckModel ceActs (startState none)).cellStates nCell
      = some (some 1)
  ∧ mapGet (runActs luckModel ceActs (startState none)).modifiedCellStates nCell
      = none
  ∧ (some 1 : Option ℤ) = (getInitialTokenValue luckModel nCell.i nCell.j).toOption :=
  ⟨by rw [ceRun_eq]; exact ceS3_cells_n,
   by rw [ceRun_eq]; exact ceS3_modified_n,
   claim1_absent_means_default luckModel none ceActs nCell (some 1)
     (by rw [ceRun_eq]; exact ceS3_cells_n)
     (by rw [ceRun_eq]; exact ceS3_modified_n)⟩

/-- C2: an in-radius click with held value equal to the cell value crafts
`2v` into the hand and empties the cell (its store entry becomes empty);
with unequal values nothing at all is mutated. -/
theorem claim2_craft (s : GameSt) (i j hv cv : ℤ)
    (hc : mapGet s.cellStates ⟨i, j⟩ = some (some cv))
    (hh : s.heldToken = some hv)
    (hd : max |i - (latLngToGridCell s.playerLatLng).i|
              |j - (latLngToGridCell s.playerLatLng).j| ≤ INTERACTION_RADIUS) :
    (hv = cv →
      (handleCellClick i j s).heldToken = some (2 * cv)
      ∧ mapGet (handleCellClick i j s).cellStates ⟨i, j⟩ = some none
      ∧ mapGet (handleCellClick i j s).modifiedCellStates ⟨i, j⟩ = some none)
  ∧ (hv ≠ cv → handleCellClick i j s = s) := by
  have hd' := not_lt.2 hd
  rw [handleCellClick_craft i j s hv cv hc hh hd']
  constructor
  · intro hveq
    rw [if_pos hveq]
    refine ⟨?_, ?_, ?_⟩
    · show some (hv * 2) = some (2 * cv)
      rw [hveq, mul_comm]
    · exact mapGet_mapSet_self _ _ _
    · exact mapGet_mapSet_self _ _ _
  · intro hne
    rw [if_neg hne]

/-- Witness for C2: crafting two `1` tokens on the player's cell, and a
mismatched `1` against `2` leaving the state unchanged. -/
theorem claim2_witness :
    ((handleCellClick pcCell.i pcCell.j wStateCraft).heldToken = some 2
     ∧ mapGet (handleCellClick pcCell.i pcCell.j wStateCraft).cellStates
         ⟨pcCell.i, pcCell.j⟩ = some none
     ∧ mapGet (handleCellClick pcCell.i pcCell.j wStateCraft).modifiedCellStates
         ⟨pcCell.i, pcCell.j⟩ = some none)
  ∧ handleCellClick pcCell.i pcCell.j wStateMismatch = wStateMismatch := by
  constructor
  · have h := (claim2_craft wStateCraft pcCell.i pcCell.j 1 1
      (by show mapGet [(pcCell, some 1)] pcCell = some (some 1)
          simp [mapGet])
      rfl
      (by show max |pcCell.i - pcCell.i| |pcCell.j - pcCell.j| ≤ INTERACTION_RADIUS
          simp [INTERACTION_RADIUS])).1 rfl
    exact ⟨h.1, h.2.1, h.2.2⟩
  · exact (claim2_craft wStateMismatch pcCell.i pcCell.j 1 2
      (by show mapGet [(pcCell, some 2)] pcCell = some (some 2)
          simp [mapGet])
      rfl
      (by show max |pcCell.i - pcCell.i| |pcCell.j - pcCell.j| ≤ INTERACTION_RADIUS
          simp [INTERACTION_RADIUS])).2 (by decide)

/-- C3: a click on a cell strictly beyond the interaction radius leaves
the whole state (player, both stores, storage) unchanged. -/
theorem claim3_outOfRadius (i j : ℤ) (s : GameSt)
    (hd : INTERACTION_RADIUS <
      max |i - (latLngToGridCell s.playerLatLng).i|
          |j - (latLngToGridCell s.playerLatLng).j|) :
    handleCellClick i j s = s :=
  handleCellClick_far i j s hd

/-- Witness for C3: clicking four cells east of the player. -/
theorem claim3_witness :
    INTERACTION_RADIUS <
      max |pcCell.i + 4 - (latLngToGridCell initState.playerLatLng).i|
          |pcCell.j - (latLngToGridCell initState.playerLatLng).j|
  ∧ handleCellClick (pcCell.i + 4) pcCell.j initState = initState := by
  have hd : INTERACTION_RADIUS <
      max |pcCell.i + 4 - (latLngToGridCell initState.playerLatLng).i|
          |pcCell.j - (latLngToGridCell initState.playerLatLng).j| := by
    show INTERACTION_RADIUS < max |pcCell.i + 4 - pcCell.i| |pcCell.j - pcCell.j|
    have h4 : pcCell.i + 4 - pcCell.i = 4 := by ring
    rw [h4, sub_self, abs_zero]
    norm_num [INTERACTION_RADIUS]
  exact ⟨hd, claim3_outOfRadius (pcCell.i + 4) pcCell.j initState hd⟩

/-- C4: saving and immediately loading reproduces the player position, the
held token and the Modified-Cell Store exactly, hence every cell resolves
to the same value as before. -/
theorem claim4_saveLoad_roundTrip (luck : String → ℚ) (s : GameSt)
    (hnd : (keysOf s.modifiedCellStates).Nodup) :
    (loadGameState (saveGameState s)).1 = true
  ∧ (loadGameState (saveGameState s)).2.playerLatLng = s.playerLatLng
  ∧ (loadGameState (saveGameState s)).2.heldToken = s.heldToken
  ∧ (loadGameState (saveGameState s)).2.modifiedCellStates = s.modifiedCellStates
  ∧ ∀ c : GridCell,
      resolveTokenValue luck (loadGameState (saveGameState s)).2.modifiedCellStates c
        = resolveTokenValue luck s.modifiedCellStates c := by
  have hm : (loadGameState (saveGameState s)).2.modifiedCellStates
      = s.modifiedCellStates := by
    show loadEntries s.modifiedCellStates = s.modifiedCellStates
    exact loadEntries_eq_self _ hnd
  exact ⟨rfl, rfl, rfl, hm, fun c => by rw [hm]⟩

/-- Witness for C4 on a state with a held token and two store entries. -/
theorem claim4_witness :
    (keysOf wStateSave.modifiedCellStates).Nodup
  ∧ (loadGameState (saveGameState wStateSave)).2.modifiedCellStates
      = wStateSave.modifiedCellStates
  ∧ (loadGameState (saveGameState wStateSave)).2.heldToken = some 2 := by
  have hnd : (keysOf wStateSave.modifiedCellStates).Nodup := by decide
  have h := claim4_saveLoad_roundTrip luckModel wStateSave hnd
  exact ⟨hnd, h.2.2.2.1, h.2.2.1.trans rfl⟩

/-- C5: a render pass gives every cell of the visible rectangle exactly
the Memento entry if one exists (even an empty one) and the deterministic
spawn value only otherwise; the render never touches the Memento store. -/
theorem claim5_render_resolution (luck : String → ℚ) (s : GameSt)
    (sw ne : LatLng) (c : GridCell)
    (hi1 : (latLngToGridCell sw).i - 1 ≤ c.i)
    (hi2 : c.i ≤ (latLngToGridCell ne).i + 1)
    (hj1 : (latLngToGridCell sw).j - 1 ≤ c.j)
    (hj2 : c.j ≤ (latLngToGridCell ne).j + 1) :
    mapGet (renderVisibleCells luck sw ne s).cellStates c
      = some (resolveTokenValue luck s.modifiedCellStates c)
  ∧ (∀ w, mapGet s.modifiedCellStates c = some w →
      mapGet (renderVisibleCells luck sw ne s).cellStates c = some w)
  ∧ (mapGet s.modifiedCellStates c = none →
      mapGet (renderVisibleCells luck sw ne s).cellStates c
        = some (getInitialTokenValue luck c.i c.j).toOption)
  ∧ (renderVisibleCells luck sw ne s).modifiedCellStates = s.modifiedCellStates := by
  have hmem : c ∈ visibleCells sw ne := mem_visibleCells.2 ⟨hi1, hi2, hj1, hj2⟩
  have hmain : mapGet (renderVisibleCells luck sw ne s).cellStates c
      = some (resolveTokenValue luck s.modifiedCellStates c) := by
    rw [mapGet_render, if_pos hmem]
  refine ⟨hmain, ?_, ?_, rfl⟩
  · intro w hw
    rw [hmain]
    simp only [resolveTokenValue, hw]
  · intro hw
    rw [hmain]
    simp only [resolveTokenValue, hw]

/-- Witness for C5: the player's cell, overridden to `5` in the Memento
store, renders as `5` and not as its spawn value. -/
theorem claim5_witness :
    ((latLngToGridCell INITIAL_PLAYER_LATLNG).i - 1 ≤ pcCell.i
     ∧ pcCell.i ≤ (latLngToGridCell INITIAL_PLAYER_LATLNG).i + 1
     ∧ (latLngToGridCell INITIAL_PLAYER_LATLNG).j - 1 ≤ pcCell.j
     ∧ pcCell.j ≤ (latLngToGridCell INITIAL_PLAYER_LATLNG).j + 1)
  ∧ mapGet wStateRender.modifiedCellStates pcCell = some (some 5)
  ∧ mapGet (renderVisibleCells luckModel INITIAL_PLAYER_LATLNG
      INITIAL_PLAYER_LATLNG wStateRender).cellStates pcCell = some (some 5) := by
  have hpc : latLngToGridCell INITIAL_PLAYER_LATLNG = pcCell := rfl
  have h1 : (latLngToGridCell INITIAL_PLAYER_LATLNG).i - 1 ≤ pcCell.i := by
    rw [hpc]; omega
  have h2 : pcCell.i ≤ (latLngToGridCell INITIAL_PLAYER_LATLNG).i + 1 := by
    rw [hpc]; omega
  have h3 : (latLngToGridCell INITIAL_PLAYER_LATLNG).j - 1 ≤ pcCell.j := by
    rw [hpc]; omega
  have h4 : pcCell.j ≤ (latLngToGridCell INITIAL_PLAYER_LATLNG).j + 1 := by
    rw [hpc]; omega
  have hentry : mapGet wStateRender.modifiedCellStates pcCell = some (some 5) := by
    show mapGet [(pcCell, some 5)] pcCell = some (some 5)
    simp [mapGet]
  exact ⟨⟨h1, h2, h3, h4⟩, hentry,
    (claim5_render_resolution luckModel wStateRender INITIAL_PLAYER_LATLNG
      INITIAL_PLAYER_LATLNG pcCell h1 h2 h3 h4).2.1 (some 5) hentry⟩

/-- C6: converting a grid cell to its geographic bounds and mapping the
centre of those bounds back through `latLngToGridCell` returns the same
cell. -/
theorem claim6_cell_roundTrip (cell : GridCell) :
    latLngToGridCell (boundsCenter (gridCellToBounds cell)) = cell := by
  have h12 : ⌊(1 / 2 : ℚ)⌋ = 0 := by
    rw [Int.floor_eq_iff]
    norm_num
  have key : ∀ z : ℤ,
      ⌊(((0 : ℚ) + z * TILE_DEGREES + (0 + (z + 1) * TILE_DEGREES)) / 2 - 0)
        / TILE_DEGREES⌋ = z := by
    intro z
    have hT : TILE_DEGREES ≠ 0 := by norm_num [TILE_DEGREES]
    have harg : (((0 : ℚ) + z * TILE_DEGREES + (0 + (z + 1) * TILE_DEGREES)) / 2 - 0)
        / TILE_DEGREES = (z : ℚ) + 1 / 2 := by
      field_simp
      ring
    rw [harg, add_comm, Int.floor_add_int, h12, zero_add]
  show GridCell.mk
      ⌊(((0 : ℚ) + cell.i * TILE_DEGREES + (0 + (cell.i + 1) * TILE_DEGREES)) / 2 - 0)
        / TILE_DEGREES⌋
      ⌊(((0 : ℚ) + cell.j * TILE_DEGREES + (0 + (cell.j + 1) * TILE_DEGREES)) / 2 - 0)
        / TILE_DEGREES⌋ = cell
  rw [key cell.i, key cell.j]

/-- C7: with nothing held and an in-radius cell resolving to `v`, a pickup
followed immediately by a place on the same cell restores the cell's
resolved value (and the empty hand), so the cell again resolves to `v`. -/
theorem claim7_pickupPlace_restores (luck : String → ℚ) (s : GameSt) (i j v : ℤ)
    (hc : mapGet s.cellStates ⟨i, j⟩ = some (some v))
    (hh : s.heldToken = none)
    (hres : resolveTokenValue luck s.modifiedCellStates ⟨i, j⟩ = some v)
    (hd : max |i - (latLngToGridCell s.playerLatLng).i|
              |j - (latLngToGridCell s.playerLatLng).j| ≤ INTERACTION_RADIUS) :
    resolveTokenValue luck
        (handleCellClick i j (handleCellClick i j s)).modifiedCellStates ⟨i, j⟩
      = some v
  ∧ resolveTokenValue luck
        (handleCellClick i j (handleCellClick i j s)).modifiedCellStates ⟨i, j⟩
      = resolveTokenValue luck s.modifiedCellStates ⟨i, j⟩
  ∧ (handleCellClick i j (handleCellClick i j s)).heldToken = s.heldToken
  ∧ mapGet (handleCellClick i j (handleCellClick i j s)).cellStates ⟨i, j⟩
      = some (some v) := by
  have hd' := not_lt.2 hd
  have h1 : handleCellClick i j s = saveGameState { s with
      heldToken := some v
      cellStates := mapSet s.cellStates ⟨i, j⟩ none
      modifiedCellStates := mapSet s.modifiedCellStates ⟨i, j⟩ none } :=
    handleCellClick_pickup i j s v hc hh hd'
  have h2 : handleCellClick i j (saveGameState { s with
        heldToken := some v
        cellStates := mapSet s.cellStates ⟨i, j⟩ none
        modifiedCellStates := mapSet s.modifiedCellStates ⟨i, j⟩ none })
      = saveGameState { (saveGameState { s with
          heldToken := some v
          cellStates := mapSet s.cellStates ⟨i, j⟩ none
          modifiedCellStates := mapSet s.modifiedCellStates ⟨i, j⟩ none }) with
        heldToken := none
        cellStates := mapSet (mapSet s.cellStates ⟨i, j⟩ none) ⟨i, j⟩ (some v)
        modifiedCellStates :=
          mapSet (mapSet s.modifiedCellStates ⟨i, j⟩ none) ⟨i, j⟩ (some v) } :=
    handleCellClick_place i j (saveGameState { s with
        heldToken := some v
        cellStates := mapSet s.cellStates ⟨i, j⟩ none
        modifiedCellStates := mapSet s.modifiedCellStates ⟨i, j⟩ none }) v
      (mapGet_mapSet_self s.cellStates ⟨i, j⟩ none) rfl hd'
  rw [h1, h2]
  have hres2 : resolveTokenValue luck
      (mapSet (mapSet s.modifiedCellStates ⟨i, j⟩ none) ⟨i, j⟩ (some v)) ⟨i, j⟩
      = some v := by
    simp only [resolveTokenValue, mapGet_mapSet_self]
  refine ⟨hres2, hres2.trans hres.symm, hh.symm, ?_⟩
  exact mapGet_mapSet_self _ _ _

/-- Witness for C7 on the player's cell holding its spawn value `1`. -/
theorem claim7_witness :
    mapGet wStatePickup.cellStates ⟨pcCell.i, pcCell.j⟩ = some (some 1)
  ∧ resolveTokenValue luckModel wStatePickup.modifiedCellStates
      ⟨pcCell.i, pcCell.j⟩ = some 1
  ∧ resolveTokenValue luckModel
      (handleCellClick pcCell.i pcCell.j
        (handleCellClick pcCell.i pcCell.j wStatePickup)).modifiedCellStates
      ⟨pcCell.i, pcCell.j⟩ = some 1
  ∧ (handleCellClick pcCell.i pcCell.j
      (handleCellClick pcCell.i pcCell.j wStatePickup)).heldToken
      = wStatePickup.heldToken := by
  have hc : mapGet wStatePickup.cellStates ⟨pcCell.i, pcCell.j⟩
      = some (some 1) := by
    show mapGet [(pcCell, some 1)] pcCell = some (some 1)
    simp [mapGet]
  have hres : resolveTokenValue luckModel wStatePickup.modifiedCellStates
      ⟨pcCell.i, pcCell.j⟩ = some 1 := by
    show resolveTokenValue luckModel [] pcCell = some 1
    simp only [resolveTokenValue, mapGet, getInitialTokenValue_luckModel]
    rfl
  have hd : max |pcCell.i - (latLngToGridCell wStatePickup.playerLatLng).i|
      |pcCell.j - (latLngToGridCell wStatePickup.playerLatLng).j|
      ≤ INTERACTION_RADIUS := by
    show max |pcCell.i - pcCell.i| |pcCell.j - pcCell.j| ≤ INTERACTION_RADIUS
    simp [INTERACTION_RADIUS]
  have h := claim7_pickupPlace_restores luckModel wStatePickup
    pcCell.i pcCell.j 1 hc rfl hres hd
  exact ⟨hc, hres, h.1, h.2.2.1⟩

/-- C8: a malformed stored blob is removed, the load reports failure, and
the game keeps the fresh default state; a parsed blob is the success case
and a missing blob is not treated as an error. -/
theorem claim8_corrupt_load :
    loadGameState { initState with storage := some PersistBlob.malformed }
      = (false, { initState with storage := none })
  ∧ ({ initState with storage := none } : GameSt).playerLatLng
      = INITIAL_PLAYER_LATLNG
  ∧ ({ initState with storage := none } : GameSt).heldToken = none
  ∧ ({ initState with storage := none } : GameSt).modifiedCellStates = []
  ∧ (∀ (s : GameSt) (g : PersistedState),
      (loadGameState { s with storage := some (PersistBlob.parsed g) }).1 = true)
  ∧ loadGameState initState = (false, initState) :=
  ⟨rfl, rfl, rfl, rfl, fun _ _ => rfl, rfl⟩

/-- C9: toggling the movement strategy flips only the strategy tag; the
player position, held token, both cell stores, and storage are untouched. -/
theorem claim9_toggle_preserves (s : GameSt) :
    (toggleStrategy s).playerLatLng = s.playerLatLng
  ∧ (toggleStrategy s).heldToken = s.heldToken
  ∧ (toggleStrategy s).cellStates = s.cellStates
  ∧ (toggleStrategy s).modifiedCellStates = s.modifiedCellStates
  ∧ (toggleStrategy s).storage = s.storage
  ∧ (toggleStrategy s).currentMovementStrategy
      = (if s.currentMovementStrategy = Strategy.buttons
         then Strategy.geolocation else Strategy.buttons) :=
  ⟨rfl, rfl, rfl, rfl, rfl, rfl⟩

/-- C10: whenever the hash utility yields a value in `[0,1)` for the
value-choice salt, the spawn function is never `undefined`: it returns
`null` or a member of `BASE_TOKEN_VALUES`. -/
theorem claim10_spawn_safe (luck : String → ℚ) (i j : ℤ)
    (h0 : 0 ≤ luck (valueChoiceSituation i j))
    (h1 : luck (valueChoiceSituation i j) < 1) :
    getInitialTokenValue luck i j ≠ JsVal.undefV
  ∧ (getInitialTokenValue luck i j = JsVal.nullV
     ∨ ∃ v, v ∈ BASE_TOKEN_VALUES ∧ getInitialTokenValue luck i j = JsVal.num v) := by
  unfold getInitialTokenValue
  by_cases hs : luck (spawnSituation i j) < INITIAL_SPAWN_PROBABILITY
  · rw [if_pos hs]
    have hlen : (BASE_TOKEN_VALUES.length : ℚ) = 2 := by
      norm_num [BASE_TOKEN_VALUES]
    rw [hlen]
    have hfl0 : 0 ≤ ⌊luck (valueChoiceSituation i j) * 2⌋ :=
      Int.floor_nonneg.2 (mul_nonneg h0 (by norm_num))
    have hfl2 : ⌊luck (valueChoiceSituation i j) * 2⌋ < 2 :=
      Int.floor_lt.2 (by push_cast; nlinarith)
    have hcase : ⌊luck (valueChoiceSituation i j) * 2⌋ = 0
        ∨ ⌊luck (valueChoiceSituation i j) * 2⌋ = 1 := by omega
    rcases hcase with h | h <;> rw [h]
    · exact ⟨by decide, Or.inr ⟨1, by decide, by decide⟩⟩
    · exact ⟨by decide, Or.inr ⟨2, by decide, by decide⟩⟩
  · rw [if_neg hs]
    exact ⟨by decide, Or.inl rfl⟩

/-- Witness for C10 with the modelled hash utility at the origin cell. -/
theorem claim10_witness :
    (0 : ℚ) ≤ luckModel (valueChoiceSituation 0 0)
  ∧ luckModel (valueChoiceSituation 0 0) < 1
  ∧ getInitialTokenValue luckModel 0 0 ≠ JsVal.undefV
  ∧ (getInitialTokenValue luckModel 0 0 = JsVal.nullV
     ∨ ∃ v, v ∈ BASE_TOKEN_VALUES
         ∧ getInitialTokenValue luckModel 0 0 = JsVal.num v) := by
  have h0 : (0 : ℚ) ≤ luckModel (valueChoiceSituation 0 0) := le_refl 0
  have h1 : luckModel (valueChoiceSituation 0 0) < 1 := by norm_num [luckModel]
  have h := claim10_spawn_safe luckModel 0 0 h0 h1
  exact ⟨h0, h1, h.1, h.2⟩

end WorldOfBits
